import Mathlib

/-!
# waresponse: the auto-response decision and timing core

A shallow embedding of `whatsapp-bridge/main.go`: text extraction, the family
and food predicates, `handleMessage`, and the pending-response registry
(`setPendingResponse`, `cancelPendingResponse`, the expiry callback).

Conventions of the embedding.

* Go strings are Lean strings; `strings.Contains` is the infix test on the
  character lists (on valid UTF-8 the byte and the rune infix tests agree).
* `*time.Timer` values are indices into the list of all timers created so
  far; a timer carries the state the runtime keeps for it.
* Goroutines are interleaved at the granularity of the registry lock: the
  expiry callback is two steps, the send and the locked clean-up delete.
* Instants and durations are nanosecond counts.
-/

namespace Waresponse

/-! ## Data model -/

/-- The transport library's `types.JID`, kept as the string its `String()`
method returns: the program reads nothing else of it. -/
structure JID where
  canonical : String
deriving DecidableEq, Repr

/-- The method `JID.String()`. -/
def JID.String (j : JID) : String := j.canonical

/-- The payload `waE2E.ExtendedTextMessage`, reduced to its `Text` field. -/
structure ExtendedTextMessage where
  Text : Option String
deriving DecidableEq, Repr

/-- The payload `waE2E.ImageMessage`, reduced to its `Caption` field. -/
structure ImageMessage where
  Caption : Option String
deriving DecidableEq, Repr

/-- The payload `waE2E.VideoMessage`, reduced to its `Caption` field. -/
structure VideoMessage where
  Caption : Option String
deriving DecidableEq, Repr

/-- The protobuf `waE2E.Message`: every field is optional (a nil pointer when
absent), and several may be present at once. -/
structure Message where
  Conversation : Option String
  ExtendedTextMessage : Option ExtendedTextMessage
  ImageMessage : Option ImageMessage
  VideoMessage : Option VideoMessage
deriving DecidableEq, Repr

/-- The fields of `types.MessageInfo` that `handleMessage` reads. -/
structure MessageInfo where
  Chat : JID
  IsFromMe : Bool
  IsGroup : Bool
deriving DecidableEq, Repr

/-- The event `events.Message`; `Message` is a pointer and may be nil. -/
structure EventsMessage where
  Info : MessageInfo
  Message : Option Message
deriving DecidableEq, Repr

/-- What the event handler is called with: `handleMessage` switches on the
dynamic type and only has a case for `*events.Message`. -/
inductive Event where
  | message (v : EventsMessage)
  | other
deriving DecidableEq, Repr

/-- The field of `types.GroupInfo` that `handleMessage` reads. -/
structure GroupInfo where
  Name : String
deriving DecidableEq, Repr

/-! ## Nil-safe protobuf getters -/

/-- Getter `(*Message).GetConversation()`: the empty string when the receiver
or the field is nil. -/
def GetConversation (m : Option Message) : String :=
  match m with
  | some x => x.Conversation.getD ""
  | none => ""

/-- Getter `(*Message).GetExtendedTextMessage()`. -/
def GetExtendedTextMessage (m : Option Message) : Option ExtendedTextMessage :=
  match m with
  | some x => x.ExtendedTextMessage
  | none => none

/-- Getter `(*Message).GetImageMessage()`. -/
def GetImageMessage (m : Option Message) : Option ImageMessage :=
  match m with
  | some x => x.ImageMessage
  | none => none

/-- Getter `(*Message).GetVideoMessage()`. -/
def GetVideoMessage (m : Option Message) : Option VideoMessage :=
  match m with
  | some x => x.VideoMessage
  | none => none

/-- Getter `(*ExtendedTextMessage).GetText()`. -/
def GetText (e : Option ExtendedTextMessage) : String :=
  match e with
  | some x => x.Text.getD ""
  | none => ""

/-- Getter `(*ImageMessage).GetCaption()`. -/
def GetImageCaption (i : Option ImageMessage) : String :=
  match i with
  | some x => x.Caption.getD ""
  | none => ""

/-- Getter `(*VideoMessage).GetCaption()`. -/
def GetVideoCaption (v : Option VideoMessage) : String :=
  match v with
  | some x => x.Caption.getD ""
  | none => ""

/-! ## Text extraction (`handleMessage`, lines 128-138) -/

/-- The `if / else if` chain that computes `text` in `handleMessage`. -/
def extractText (m : Option Message) : String :=
  if GetConversation m ≠ "" then
    GetConversation m
  else if (GetExtendedTextMessage m).isSome then
    GetText (GetExtendedTextMessage m)
  else if (GetImageMessage m).isSome ∧ GetImageCaption (GetImageMessage m) ≠ "" then
    GetImageCaption (GetImageMessage m)
  else if (GetVideoMessage m).isSome ∧ GetVideoCaption (GetVideoMessage m) ≠ "" then
    GetVideoCaption (GetVideoMessage m)
  else
    ""

/-! ## Strings -/

/-- Whether some suffix of `s` starts with `sub`. -/
def containsChars (sub : List Char) : List Char → Bool
  | [] => sub.isEmpty
  | c :: t => sub.isPrefixOf (c :: t) || containsChars sub t

/-- The library function `strings.Contains(s, substr)`. -/
def stringsContains (s substr : String) : Bool :=
  containsChars substr.data s.data

/-! ## The food predicate (`shouldAutoRespond`) -/

/-- The fragment of the regular-expression syntax that the pattern of
`shouldAutoRespond` uses, under the flag `(?i)`. -/
inductive Regexp where
  | eps
  | lit (c : Char)
  | dotStar
  | cat (a b : Regexp)
  | alt (a b : Regexp)
deriving DecidableEq, Repr

/-- Simple case folding, for a literal `p` of Basic Latin or among the Latin-1
letters U+00C0 to U+00DE and U+00E0 to U+00FE (every rune of the pattern is
one): the runes that `p` matches under `(?i)`. The orbits of `k` and `s` have a
third member (the Kelvin sign and the long s), the orbit of `å` the Angstrom
sign. -/
def foldOrbit (p : Char) : List Char :=
  let n := p.toNat
  let pair : List Char :=
    if (65 ≤ n ∧ n ≤ 90) ∨ (192 ≤ n ∧ n ≤ 222 ∧ n ≠ 215) then [p, Char.ofNat (n + 32)]
    else if (97 ≤ n ∧ n ≤ 122) ∨ (224 ≤ n ∧ n ≤ 254 ∧ n ≠ 247) then [p, Char.ofNat (n - 32)]
    else [p]
  if n = 75 ∨ n = 107 then pair ++ [Char.ofNat 8490]
  else if n = 83 ∨ n = 115 then pair ++ [Char.ofNat 383]
  else if n = 197 ∨ n = 229 then pair ++ [Char.ofNat 8491]
  else pair

/-- Whether the rune `c` matches the literal `p` under `(?i)`. -/
def equalFold (p c : Char) : Bool := (foldOrbit p).contains c

/-- The remainders `.*` can leave: `.` matches every rune but the newline. -/
def dotStarRests : List Char → List (List Char)
  | [] => [[]]
  | c :: t => (c :: t) :: (if c = '\n' then [] else dotStarRests t)

/-- Every remainder the expression can leave after matching a prefix of the
input. -/
def Regexp.rests : Regexp → List Char → List (List Char)
  | .eps, s => [s]
  | .lit _, [] => []
  | .lit p, c :: t => if equalFold p c then [t] else []
  | .dotStar, s => dotStarRests s
  | .cat a b, s => (a.rests s).flatMap b.rests
  | .alt a b, s => a.rests s ++ b.rests s

/-- Whether the expression matches at the start of some suffix of the input:
an unanchored search. -/
def Regexp.search (r : Regexp) : List Char → Bool
  | [] => !(r.rests []).isEmpty
  | c :: t => !(r.rests (c :: t)).isEmpty || r.search t

/-- A run of literals. -/
def word : List Char → Regexp
  | [] => .eps
  | [c] => .lit c
  | c :: t => .cat (.lit c) (word t)

/-- An alternative of the form `first.*second`. -/
def gap (first second : String) : Regexp :=
  .cat (word first.data) (.cat .dotStar (word second.data))

/-- The eighteen single-word alternatives of the pattern in
`shouldAutoRespond`, in source order, rune for rune as they stand in the source
file: there each `ä` of the Swedish words is the two runes U+00C3 U+00A4. -/
def sourceTokens : List String :=
  [ "sushi", "pizza", "dinner", "takeout", "eat", "hungry", "food", "restaurant",
    "order", "mat", "middag", "lunch", "Ã¤ta", "hungrig", "kÃ¤k", "maten",
    "restaurang", "bestÃ¤lla" ]

/-- All alternatives of the pattern: the words, then the two with a gap. -/
def patternAlternatives : List Regexp :=
  sourceTokens.map (fun tok => word tok.data) ++ [gap "nÃ¤r" "mat", gap "vad" "Ã¤ta"]

/-- One group of alternatives. -/
def altsOf : List Regexp → Regexp
  | [] => .eps
  | r :: rs => rs.foldl .alt r

/-- The pattern of `shouldAutoRespond`, under `(?i)`. -/
def pattern : Regexp := altsOf patternAlternatives

/-- The library call `regexp.MatchString(pattern, text)` for this pattern,
which compiles, so the error result is nil. -/
def shouldAutoRespond (text : String) : Bool :=
  pattern.search text.data

/-- Whether the input starts with the token, up to case folding. -/
def foldPrefix : List Char → List Char → Bool
  | [], _ => true
  | _ :: _, [] => false
  | p :: ps, c :: cs => equalFold p c && foldPrefix ps cs

/-- Whether the token occurs in the input at some position, up to case
folding. -/
def containsFold (tok : List Char) : List Char → Bool
  | [] => foldPrefix tok []
  | c :: t => foldPrefix tok (c :: t) || containsFold tok t

/-! ## The outside world -/

/-- One entry of `Messages` in a completion request. -/
structure ChatCompletionMessage where
  Role : String
  Content : String
deriving DecidableEq, Repr

/-- The fields of `openai.ChatCompletionRequest` that `sendAutoReply` sets. -/
structure ChatCompletionRequest where
  Model : String
  Messages : List ChatCompletionMessage
  MaxTokens : Nat
deriving DecidableEq, Repr

/-- The library constant `openai.GPT4`. -/
def GPT4 : String := "gpt-4"

/-- The external collaborators the program calls: the group lookup of the
transport client, `strings.ToLower`, and the completion client (the contents of
the returned choices, or an error). -/
structure Env where
  GetGroupInfo : JID → Except String GroupInfo
  ToLower : String → String
  CreateChatCompletion : ChatCompletionRequest → Except String (List String)

/-! ## Timers and the registry -/

/-- What the runtime knows of a timer made by `time.AfterFunc`: `armed` until
it expires or is stopped; `fired` once its callback has run up to and including
the send, with the clean-up delete outstanding; `done` after the clean-up. -/
inductive TimerState where
  | armed
  | stopped
  | fired
  | done
deriving DecidableEq, Repr

/-- A timer made by `setPendingResponse`: the `chatJID` its closure captured
(the captured `chatKey` is `chatJID.String()`), the instant it is due, and its
state. -/
structure Timer where
  chatJID : JID
  when : Nat
  state : TimerState
deriving DecidableEq, Repr

/-- The method `(*Timer).Stop()`: prevents the timer from firing; no effect on
a timer that has already expired or been stopped. -/
def Timer.Stop (tm : Timer) : Timer :=
  match tm.state with
  | .armed => { tm with state := .stopped }
  | _ => tm

/-- Replaces the timer at index `t`. -/
def updateTimer (f : Timer → Timer) : Nat → List Timer → List Timer
  | _, [] => []
  | 0, tm :: ts => f tm :: ts
  | n + 1, tm :: ts => tm :: updateTimer f n ts

/-- The process state: the clock, every timer created so far, the global map
`pendingResponses` (chat key to timer), and the traffic so far: the outbound
`client.SendMessage` calls (chat and text), the completion requests issued, and
the `go sendAutoReply(chat, text)` goroutines started. -/
structure World where
  now : Nat
  timers : List Timer
  pendingResponses : String → Option Nat
  sent : List (JID × String)
  requested : List ChatCompletionRequest
  spawned : List (JID × String)

/-- The state at process start. -/
def World.init : World :=
  { now := 0, timers := [], pendingResponses := fun _ => none,
    sent := [], requested := [], spawned := [] }

/-- The constant `time.Second`. -/
def Second : Int := 1000000000

/-- The function `sendWaitingMessage`: one outbound send of the fixed text; a
failed send is only logged. -/
def sendWaitingMessage (w : World) (chatJID : JID) : World :=
  { w with sent := w.sent ++ [(chatJID, "Jag svarar snart.")] }

/-- The function `setPendingResponse`, under the registry lock: stop the timer
registered for the chat, if any; create a timer due after `delay` (at once for
a delay that is not positive); register it under the chat key. -/
def setPendingResponse (w : World) (chatJID : JID) (delay : Int) : World :=
  let chatKey := chatJID.String
  let timers :=
    match w.pendingResponses chatKey with
    | some timer => updateTimer Timer.Stop timer w.timers
    | none => w.timers
  let timer := timers.length
  { w with
    timers := timers ++ [{ chatJID := chatJID, when := w.now + delay.toNat, state := .armed }]
    pendingResponses := fun k => if k = chatKey then some timer else w.pendingResponses k }

/-- The function `cancelPendingResponse`, under the registry lock. -/
def cancelPendingResponse (w : World) (chatKey : String) : World :=
  match w.pendingResponses chatKey with
  | some timer =>
    { w with
      timers := updateTimer Timer.Stop timer w.timers
      pendingResponses := fun k => if k = chatKey then none else w.pendingResponses k }
  | none => w

/-- The first part of the callback given to `time.AfterFunc`, run when timer
`t` expires: log, then `sendWaitingMessage(chatJID)`. Only an armed timer that
is due expires. -/
def timerExpire (w : World) (t : Nat) : Option World :=
  match w.timers[t]? with
  | some tm =>
    if tm.state = .armed ∧ tm.when ≤ w.now then
      some (sendWaitingMessage
        { w with timers := updateTimer (fun x => { x with state := .fired }) t w.timers }
        tm.chatJID)
    else none
  | none => none

/-- The second part of the callback: take the lock and
`delete(pendingResponses, chatKey)`. -/
def timerCleanup (w : World) (t : Nat) : Option World :=
  match w.timers[t]? with
  | some tm =>
    if tm.state = .fired then
      some { w with
        timers := updateTimer (fun x => { x with state := .done }) t w.timers
        pendingResponses := fun k => if k = tm.chatJID.String then none else w.pendingResponses k }
    else none
  | none => none

/-- The passing of `d` nanoseconds. -/
def elapse (w : World) (d : Nat) : World :=
  { w with now := w.now + d }

/-! ## Reply generation and the event handler -/

/-- The request literal built in `sendAutoReply`. -/
def autoReplyRequest (originalMessage : String) : ChatCompletionRequest :=
  { Model := GPT4
    Messages :=
      [ { Role := "system"
          Content := "You are a cheerful auto-responder in Marcus's family WhatsApp chat. Say yes to food questions unless otherwise instructed. Keep responses short and family-friendly." },
        { Role := "user", Content := originalMessage } ]
    MaxTokens := 150 }

/-- The function `sendAutoReply`: request a completion; on an error or an
empty choice list return; otherwise send the first choice to the chat. -/
def sendAutoReply (env : Env) (w : World) (chatJID : JID) (originalMessage : String) : World :=
  let w1 := { w with requested := w.requested ++ [autoReplyRequest originalMessage] }
  match env.CreateChatCompletion (autoReplyRequest originalMessage) with
  | .error _ => w1
  | .ok [] => w1
  | .ok (reply :: _) => { w1 with sent := w1.sent ++ [(chatJID, reply)] }

/-- The function `handleMessage`. The two registry calls of the standby branch
run one after the other. -/
def handleMessage (env : Env) (w : World) (evt : Event) : World :=
  match evt with
  | .message v =>
    if v.Info.IsFromMe then w
    else if !v.Info.IsGroup then w
    else
      let text := extractText v.Message
      if text = "" then w
      else
        match env.GetGroupInfo v.Info.Chat with
        | .error _ => w
        | .ok groupInfo =>
          let groupName := env.ToLower groupInfo.Name
          if !stringsContains groupName "family" then w
          else if shouldAutoRespond text then
            { w with spawned := w.spawned ++ [(v.Info.Chat, text)] }
          else if !v.Info.IsFromMe then
            setPendingResponse (cancelPendingResponse w v.Info.Chat.String) v.Info.Chat
              (10 * Second)
          else
            cancelPendingResponse w v.Info.Chat.String
  | .other => w

/-! ## Executions of the registry -/

/-- The steps of the registry: the two operations, the two parts of an expiry
callback, and the passing of time. -/
inductive Action where
  | setPending (chatJID : JID) (delay : Int)
  | cancelPending (chatKey : String)
  | expire (t : Nat)
  | cleanup (t : Nat)
  | wait (d : Nat)
deriving DecidableEq, Repr

/-- One step; `none` when the step is not enabled. -/
def step (w : World) : Action → Option World
  | .setPending chatJID delay => some (setPendingResponse w chatJID delay)
  | .cancelPending chatKey => some (cancelPendingResponse w chatKey)
  | .expire t => timerExpire w t
  | .cleanup t => timerCleanup w t
  | .wait d => some (elapse w d)

/-- What an observer of the registry sees of a step. -/
inductive Obs where
  | arm (chatKey : String)
  | disarm (chatKey : String)
  | standby (chatKey : String)
  | quiet
deriving DecidableEq, Repr

/-- The observation of a step taken in state `w`. -/
def observe (w : World) : Action → Obs
  | .setPending chatJID _ => .arm chatJID.String
  | .cancelPending chatKey => .disarm chatKey
  | .expire t =>
    match w.timers[t]? with
    | some tm => .standby tm.chatJID.String
    | none => .quiet
  | .cleanup _ => .quiet
  | .wait _ => .quiet

/-- Runs a schedule, collecting the observations; `none` when some step is not
enabled. -/
def run (w : World) : List Action → Option (World × List Obs)
  | [] => some (w, [])
  | a :: rest =>
    match step w a with
    | none => none
    | some w1 =>
      match run w1 rest with
      | none => none
      | some (w2, obs) => some (w2, observe w a :: obs)

/-- The property that a disarm silences the chat: every standby send that
follows a disarm of the same chat has an arm of that chat in between. -/
def DisarmSilences (obs : List Obs) : Prop :=
  ∀ (c : String) (i j : Nat), i < j →
    obs[i]? = some (.disarm c) → obs[j]? = some (.standby c) →
    ∃ k, i < k ∧ k < j ∧ obs[k]? = some (.arm c)

/-! ## Sample inputs -/

/-- A family group chat. -/
def familyChat : JID := ⟨"1203630family@g.us"⟩

/-- A group chat that is not a family group. -/
def workChat : JID := ⟨"1203630work@g.us"⟩

/-- A private chat. -/
def privateChat : JID := ⟨"46700000000@s.whatsapp.net"⟩

/-- Collaborators for the samples: the family chat is named `Our Family`, the
work chat `Work Chat`, every other lookup fails; lower-casing is that of Basic
Latin; the completion client answers with one choice. -/
def sampleEnv : Env :=
  { GetGroupInfo := fun j =>
      if j = familyChat then .ok ⟨"Our Family"⟩
      else if j = workChat then .ok ⟨"Work Chat"⟩
      else .error "not a group"
    ToLower := fun s => ⟨s.data.map Char.toLower⟩
    CreateChatCompletion := fun _ => .ok ["Yes, sushi sounds great!"] }

/-- A plain-text message event. -/
def textEvent (chat : JID) (fromMe isGroup : Bool) (body : String) : EventsMessage :=
  { Info := { Chat := chat, IsFromMe := fromMe, IsGroup := isGroup }
    Message := some { Conversation := some body, ExtendedTextMessage := none,
                      ImageMessage := none, VideoMessage := none } }

/-- A payload with a present but empty extended-text body and an image with a
caption. -/
def emptyExtendedWithImage : Message :=
  { Conversation := none
    ExtendedTextMessage := some { Text := some "" }
    ImageMessage := some { Caption := some "pizza?" }
    VideoMessage := none }

/-- Ten seconds, in nanoseconds. -/
def tenSeconds : Nat := 10000000000

/-- A schedule on one chat: arm; the timer expires and sends; re-arm while the
callback has not yet done its clean-up; the clean-up delete; disarm; the second
timer expires and sends. -/
def orphanSchedule : List Action :=
  [ .setPending familyChat (10 * Second), .wait tenSeconds, .expire 0,
    .setPending familyChat (10 * Second), .cleanup 0,
    .cancelPending familyChat.String, .wait tenSeconds, .expire 1 ]

/-- A schedule on one chat, with the instants in seconds: timer 0 is armed at 0
and expires at 10; `setPendingResponse(c, 10s)` at 11 makes timer 1; the
clean-up of timer 0 runs; `setPendingResponse(c, 10s)` at 14 makes timer 2. -/
def rearmPrefix : List Action :=
  [ .setPending familyChat (10 * Second), .wait tenSeconds, .expire 0,
    .wait 1000000000, .setPending familyChat (10 * Second), .cleanup 0,
    .wait 3000000000, .setPending familyChat (10 * Second) ]

/-- The continuation of `rearmPrefix` with no further arm or disarm: timer 1
expires at 21, timer 2 at 24. -/
def rearmSchedule : List Action :=
  rearmPrefix ++ [ .wait 7000000000, .expire 1, .wait 3000000000, .expire 2 ]

/-- Scenario: somebody writes `Hey everyone` in the family group. -/
def heyEvent : EventsMessage := textEvent familyChat false true "Hey everyone"

/-- Scenario: the operator answers in the family group. -/
def selfReplyEvent : EventsMessage := textEvent familyChat true true "On my way"

/-- Scenario: a food question in the family group. -/
def sushiEvent : EventsMessage :=
  textEvent familyChat false true "Should we do sushi tonight?"

/-- The state three seconds after `heyEvent` was handled at process start. -/
def standbyPending : World :=
  elapse (handleMessage sampleEnv World.init (.message heyEvent)) 3000000000

/-- The state in which the timer armed at process start for the family chat
has just become due. -/
def armedDue : World :=
  elapse (setPendingResponse World.init familyChat (10 * Second)) tenSeconds

/-- What an observer sees of `orphanSchedule`. -/
def orphanObs : List Obs :=
  [ .arm familyChat.String, .quiet, .standby familyChat.String,
    .arm familyChat.String, .quiet,
    .disarm familyChat.String, .quiet, .standby familyChat.String ]

/-! ## Lemmas on the pattern -/

theorem rests_word (cs u : List Char) :
    (word cs).rests u = if foldPrefix cs u = true then [u.drop cs.length] else [] := by
  induction cs generalizing u with
  | nil => simp [word, Regexp.rests, foldPrefix]
  | cons c t ih =>
    cases t with
    | nil =>
      cases u with
      | nil => simp [word, Regexp.rests, foldPrefix]
      | cons x xs => simp [word, Regexp.rests, foldPrefix]
    | cons c2 t2 =>
      cases u with
      | nil => simp [word, Regexp.rests, foldPrefix]
      | cons x xs =>
        by_cases hx : equalFold c x = true
        · simp [word, Regexp.rests, foldPrefix, hx, ih xs]
        · simp [word, Regexp.rests, foldPrefix, hx]

theorem mem_dotStarRests_suffix (v x : List Char) (h : x ∈ dotStarRests v) : x <:+ v := by
  induction v with
  | nil =>
    simp [dotStarRests] at h
    subst h
    exact List.suffix_refl _
  | cons c t ih =>
    simp only [dotStarRests, List.mem_cons] at h
    rcases h with h | h
    · subst h
      exact List.suffix_refl _
    · by_cases hc : c = '\n'
      · simp [hc] at h
      · simp only [hc, if_false] at h
        exact List.suffix_cons_iff.mpr (Or.inr (ih h))

theorem containsFold_iff (tok s : List Char) :
    containsFold tok s = true ↔ ∃ x, x <:+ s ∧ foldPrefix tok x = true := by
  induction s with
  | nil =>
    constructor
    · intro h
      exact ⟨[], List.suffix_refl _, h⟩
    · rintro ⟨x, hx, hp⟩
      have : x = [] := List.suffix_nil.mp hx
      subst this
      exact hp
  | cons c t ih =>
    simp only [containsFold, Bool.or_eq_true, ih]
    constructor
    · rintro (h | ⟨x, hx, hp⟩)
      · exact ⟨c :: t, List.suffix_refl _, h⟩
      · exact ⟨x, List.suffix_cons_iff.mpr (Or.inr hx), hp⟩
    · rintro ⟨x, hx, hp⟩
      rcases List.suffix_cons_iff.mp hx with h | h
      · subst h
        exact Or.inl hp
      · exact Or.inr ⟨x, h, hp⟩

theorem search_iff (r : Regexp) (s : List Char) :
    r.search s = true ↔ ∃ x, x <:+ s ∧ r.rests x ≠ [] := by
  induction s with
  | nil =>
    constructor
    · intro h
      refine ⟨[], List.suffix_refl _, ?_⟩
      intro e
      simp [Regexp.search, e] at h
    · rintro ⟨x, hx, hp⟩
      have : x = [] := List.suffix_nil.mp hx
      subst this
      cases e : r.rests [] with
      | nil => exact absurd e hp
      | cons y ys => simp [Regexp.search, e]
  | cons c t ih =>
    simp only [Regexp.search, Bool.or_eq_true, ih]
    constructor
    · rintro (h | ⟨x, hx, hp⟩)
      · refine ⟨c :: t, List.suffix_refl _, ?_⟩
        intro e
        simp [e] at h
      · exact ⟨x, List.suffix_cons_iff.mpr (Or.inr hx), hp⟩
    · rintro ⟨x, hx, hp⟩
      rcases List.suffix_cons_iff.mp hx with h | h
      · subst h
        left
        cases e : r.rests (c :: t) with
        | nil => exact absurd e hp
        | cons y ys => simp
      · exact Or.inr ⟨x, h, hp⟩

theorem rests_foldl_alt (rs : List Regexp) (r : Regexp) (x : List Char) :
    (rs.foldl .alt r).rests x ≠ [] ↔ r.rests x ≠ [] ∨ ∃ a ∈ rs, a.rests x ≠ [] := by
  induction rs generalizing r with
  | nil => simp
  | cons b rs ih =>
    simp only [List.foldl_cons, ih, Regexp.rests, List.mem_cons]
    constructor
    · rintro (h | ⟨a, ha, h⟩)
      · by_cases hr : r.rests x = []
        · right
          refine ⟨b, Or.inl rfl, ?_⟩
          intro hb
          exact h (by rw [hr, hb]; rfl)
        · exact Or.inl hr
      · exact Or.inr ⟨a, Or.inr ha, h⟩
    · rintro (h | ⟨a, ha | ha, h⟩)
      · left
        intro e
        exact h (List.append_eq_nil.mp e).1
      · subst ha
        left
        intro e
        exact h (List.append_eq_nil.mp e).2
      · exact Or.inr ⟨a, ha, h⟩

theorem rests_altsOf (l : List Regexp) (x : List Char) (hl : l ≠ []) :
    (altsOf l).rests x ≠ [] ↔ ∃ a ∈ l, a.rests x ≠ [] := by
  cases l with
  | nil => exact absurd rfl hl
  | cons r rs =>
    simp only [altsOf, rests_foldl_alt, List.mem_cons]
    constructor
    · rintro (h | ⟨a, ha, h⟩)
      · exact ⟨r, Or.inl rfl, h⟩
      · exact ⟨a, Or.inr ha, h⟩
    · rintro ⟨a, ha | ha, h⟩
      · subst ha
        exact Or.inl h
      · exact Or.inr ⟨a, ha, h⟩

theorem rests_gap (first second : String) (x : List Char)
    (h : (gap first second).rests x ≠ []) :
    ∃ y, y <:+ x ∧ foldPrefix second.data y = true := by
  obtain ⟨z, hz⟩ := List.exists_mem_of_ne_nil _ h
  simp only [gap, Regexp.rests, List.mem_flatMap] at hz
  obtain ⟨v, hv, y, hy, hz⟩ := hz
  rw [rests_word] at hv hz
  by_cases hp : foldPrefix second.data y = true
  · refine ⟨y, ?_, hp⟩
    have hyv : y <:+ v := mem_dotStarRests_suffix v y hy
    by_cases hf : foldPrefix first.data x = true
    · simp only [hf, if_true, List.mem_singleton] at hv
      subst hv
      exact hyv.trans (List.drop_suffix _ _)
    · simp [hf] at hv
  · simp [hp] at hz

/-- What the pattern matches: `shouldAutoRespond(text)` is true exactly when
the text contains, at some position and up to case folding, one of the eighteen
words as the source spells them; the two alternatives with a gap add
nothing. -/
theorem shouldAutoRespond_iff_contains_sourceToken (text : String) :
    shouldAutoRespond text = true ↔
      ∃ tok ∈ sourceTokens, containsFold tok.data text.data = true := by
  unfold shouldAutoRespond pattern
  rw [search_iff]
  constructor
  · rintro ⟨x, hx, hm⟩
    obtain ⟨a, ha, hne⟩ := (rests_altsOf patternAlternatives x (by decide)).mp hm
    simp only [patternAlternatives, List.mem_append, List.mem_map, List.mem_cons,
      List.mem_singleton, List.not_mem_nil, or_false] at ha
    rcases ha with ⟨tok, htok, rfl⟩ | rfl | rfl
    · refine ⟨tok, htok, (containsFold_iff _ _).mpr ⟨x, hx, ?_⟩⟩
      rw [rests_word] at hne
      by_contra hp
      simp [hp] at hne
    · obtain ⟨y, hy, hp⟩ := rests_gap _ _ x hne
      exact ⟨"mat", by decide, (containsFold_iff _ _).mpr ⟨y, hy.trans hx, hp⟩⟩
    · obtain ⟨y, hy, hp⟩ := rests_gap _ _ x hne
      exact ⟨"Ã¤ta", by decide, (containsFold_iff _ _).mpr ⟨y, hy.trans hx, hp⟩⟩
  · rintro ⟨tok, htok, hc⟩
    obtain ⟨x, hx, hp⟩ := (containsFold_iff _ _).mp hc
    refine ⟨x, hx, (rests_altsOf patternAlternatives x (by decide)).mpr
      ⟨word tok.data, ?_, ?_⟩⟩
    · simp only [patternAlternatives, List.mem_append, List.mem_map]
      exact Or.inl ⟨tok, htok, rfl⟩
    · rw [rests_word]
      simp [hp]

/-! ## Lemmas on the timer list -/

theorem length_updateTimer (f : Timer → Timer) (t : Nat) (ts : List Timer) :
    (updateTimer f t ts).length = ts.length := by
  induction ts generalizing t with
  | nil => cases t <;> rfl
  | cons tm ts ih =>
    cases t with
    | zero => rfl
    | succ n => simp [updateTimer, ih]

theorem getElem?_updateTimer_self (f : Timer → Timer) (t : Nat) (ts : List Timer) :
    (updateTimer f t ts)[t]? = (ts[t]?).map f := by
  induction ts generalizing t with
  | nil => cases t <;> simp [updateTimer]
  | cons tm ts ih =>
    cases t with
    | zero => simp [updateTimer]
    | succ n => simp [updateTimer, ih]

theorem getElem?_updateTimer_ne (f : Timer → Timer) (t u : Nat) (ts : List Timer)
    (h : u ≠ t) : (updateTimer f t ts)[u]? = ts[u]? := by
  induction ts generalizing t u with
  | nil => cases t <;> simp [updateTimer]
  | cons tm ts ih =>
    cases t with
    | zero =>
      cases u with
      | zero => exact absurd rfl h
      | succ m => simp [updateTimer]
    | succ n =>
      cases u with
      | zero => simp [updateTimer]
      | succ m =>
        have hm : m ≠ n := fun e => h (by rw [e])
        simp [updateTimer, ih n m hm]

theorem Timer.state_Stop_ne_armed (tm : Timer) : tm.Stop.state ≠ .armed := by
  unfold Timer.Stop
  cases h : tm.state <;> simp [h]

theorem timerExpire_of_due (w : World) (t : Nat) (tm : Timer)
    (htm : w.timers[t]? = some tm) (harmed : tm.state = .armed) (hdue : tm.when ≤ w.now) :
    timerExpire w t = some (sendWaitingMessage
      { w with timers := updateTimer (fun x => { x with state := .fired }) t w.timers }
      tm.chatJID) := by
  unfold timerExpire
  rw [htm]
  exact if_pos ⟨harmed, hdue⟩

theorem timerExpire_of_early (w : World) (t : Nat) (tm : Timer)
    (htm : w.timers[t]? = some tm) (hearly : w.now < tm.when) :
    timerExpire w t = none := by
  unfold timerExpire
  rw [htm]
  exact if_neg (fun h => absurd h.2 (Nat.not_le_of_lt hearly))

/-! ## The registry operations -/

theorem cancelPendingResponse_self (w : World) (c : String) :
    (cancelPendingResponse w c).pendingResponses c = none := by
  cases h : w.pendingResponses c <;> simp [cancelPendingResponse, h]

theorem cancelPendingResponse_other (w : World) (c k : String) (hk : k ≠ c) :
    (cancelPendingResponse w c).pendingResponses k = w.pendingResponses k := by
  cases h : w.pendingResponses c <;> simp [cancelPendingResponse, h, hk]

theorem cancelPendingResponse_stops (w : World) (c : String) (t : Nat) (tm : Timer)
    (ht : w.pendingResponses c = some t) (htm : w.timers[t]? = some tm) :
    (cancelPendingResponse w c).timers[t]? = some tm.Stop := by
  simp [cancelPendingResponse, ht, getElem?_updateTimer_self, htm]

/-- C10: `cancelPendingResponse(c)` removes the entry for `c` and stops its
timer if there is one, leaves every other chat's entry, every other timer and
the traffic unchanged, is the identity on a state with no entry for `c`, and
applied twice gives the same state as applied once. -/
theorem cancelPendingResponse_idempotent_frame (w : World) (c : String) :
    (cancelPendingResponse w c).pendingResponses c = none ∧
    (∀ k, k ≠ c →
      (cancelPendingResponse w c).pendingResponses k = w.pendingResponses k) ∧
    (∀ t tm, w.pendingResponses c = some t → w.timers[t]? = some tm →
      (cancelPendingResponse w c).timers[t]? = some tm.Stop ∧ tm.Stop.state ≠ .armed) ∧
    (∀ u, w.pendingResponses c ≠ some u →
      (cancelPendingResponse w c).timers[u]? = w.timers[u]?) ∧
    (cancelPendingResponse w c).sent = w.sent ∧
    (w.pendingResponses c = none → cancelPendingResponse w c = w) ∧
    cancelPendingResponse (cancelPendingResponse w c) c = cancelPendingResponse w c := by
  refine ⟨cancelPendingResponse_self w c, fun k hk => cancelPendingResponse_other w c k hk,
    fun t tm ht htm => ⟨cancelPendingResponse_stops w c t tm ht htm, tm.state_Stop_ne_armed⟩,
    ?_, ?_, ?_, ?_⟩
  · intro u hu
    cases h : w.pendingResponses c with
    | none => simp [cancelPendingResponse, h]
    | some t0 =>
      have hne : u ≠ t0 := fun e => hu (by rw [h, e])
      simp [cancelPendingResponse, h, getElem?_updateTimer_ne _ _ _ _ hne]
  · cases h : w.pendingResponses c <;> simp [cancelPendingResponse, h]
  · intro hn
    simp [cancelPendingResponse, hn]
  · have hs := cancelPendingResponse_self w c
    generalize cancelPendingResponse w c = w1 at hs
    simp [cancelPendingResponse, hs]

/-- What `setPendingResponse(c, d)` does to any state: the timer registered
for `c` before, if any, is stopped; a new armed timer due `d` from now is
appended and registered for `c`; the clock is not touched. -/
theorem setPendingResponse_spec (w : World) (c : JID) (d : Int) :
    (setPendingResponse w c d).pendingResponses c.String = some w.timers.length ∧
    (setPendingResponse w c d).timers.length = w.timers.length + 1 ∧
    (setPendingResponse w c d).timers[w.timers.length]?
      = some { chatJID := c, when := w.now + d.toNat, state := .armed } ∧
    (∀ t tm, w.pendingResponses c.String = some t → w.timers[t]? = some tm →
      (setPendingResponse w c d).timers[t]? = some tm.Stop) ∧
    (setPendingResponse w c d).now = w.now := by
  cases h : w.pendingResponses c.String with
  | none => simp [setPendingResponse, h]
  | some t0 =>
    refine ⟨?_, ?_, ?_, ?_, rfl⟩
    · simp [setPendingResponse, h, length_updateTimer]
    · simp [setPendingResponse, h, length_updateTimer]
    · have hl := length_updateTimer Timer.Stop t0 w.timers
      simp only [setPendingResponse, h]
      rw [← hl]
      simp
    · intro t tm ht htm
      have e : t0 = t := Option.some.inj ht
      subst e
      have hlt : t0 < (updateTimer Timer.Stop t0 w.timers).length := by
        rw [length_updateTimer]
        by_contra hge
        rw [List.getElem?_eq_none (Nat.le_of_not_lt hge)] at htm
        exact absurd htm (by simp)
      simp only [setPendingResponse, h]
      rw [List.getElem?_append_left hlt, getElem?_updateTimer_self, htm]
      rfl

/-- Re-arming with nothing but time passing in between: the timer of the first
call is stopped by the second, the entry for the chat is the timer of the
second call, and that timer is armed and due `d2` after the second call. -/
theorem setPendingResponse_rearm (w : World) (c : JID) (d1 d2 : Int) (dt : Nat) :
    (setPendingResponse (elapse (setPendingResponse w c d1) dt) c d2).timers[w.timers.length]?
      = some { chatJID := c, when := w.now + d1.toNat, state := .stopped } ∧
    (setPendingResponse (elapse (setPendingResponse w c d1) dt) c d2).pendingResponses c.String
      = some (w.timers.length + 1) ∧
    (setPendingResponse (elapse (setPendingResponse w c d1) dt) c d2).timers[w.timers.length + 1]?
      = some { chatJID := c, when := w.now + dt + d2.toNat, state := .armed } := by
  obtain ⟨h1, h2, h3, _, h5⟩ := setPendingResponse_spec w c d1
  obtain ⟨k1, _, k3, k4, _⟩ := setPendingResponse_spec (elapse (setPendingResponse w c d1) dt) c d2
  have hlen : (elapse (setPendingResponse w c d1) dt).timers.length = w.timers.length + 1 := h2
  have hnow : (elapse (setPendingResponse w c d1) dt).now = w.now + dt := by
    simp [elapse, h5]
  rw [hlen] at k1 k3
  rw [hnow] at k3
  exact ⟨k4 _ _ h1 h3, k1, k3⟩

/-- A timer that is not armed never expires. -/
theorem timerExpire_of_not_armed (w : World) (t : Nat) (tm : Timer)
    (htm : w.timers[t]? = some tm) (hstate : tm.state ≠ .armed) :
    timerExpire w t = none := by
  unfold timerExpire
  rw [htm]
  exact if_neg (fun h => hstate h.1)

/-! ## The event handler -/

/-- C7: a message that is not a group message, or whose group has a name that
lower-cased does not contain `family`, changes nothing: no goroutine is
started, so no completion is requested and nothing is sent, and the registry is
as it was, whatever the text. -/
theorem handleMessage_ignores_outside_family (env : Env) (w : World) (v : EventsMessage)
    (h : v.Info.IsGroup = false ∨
      ∃ info, env.GetGroupInfo v.Info.Chat = .ok info ∧
        stringsContains (env.ToLower info.Name) "family" = false) :
    handleMessage env w (.message v) = w := by
  unfold handleMessage
  rcases h with h | ⟨info, hinfo, hfam⟩
  · simp [h]
  · simp only [hinfo, hfam]
    simp

/-- A private message with a food keyword, and a food keyword in the group
`Work Chat`, are both ignored. -/
theorem handleMessage_ignores_outside_family_witness :
    shouldAutoRespond "pizza?" = true ∧
    handleMessage sampleEnv World.init (.message (textEvent privateChat false false "pizza?"))
      = World.init ∧
    handleMessage sampleEnv World.init (.message (textEvent workChat false true "pizza?"))
      = World.init :=
  ⟨by decide,
   handleMessage_ignores_outside_family sampleEnv World.init
     (textEvent privateChat false false "pizza?") (Or.inl rfl),
   handleMessage_ignores_outside_family sampleEnv World.init
     (textEvent workChat false true "pizza?") (Or.inr ⟨⟨"Work Chat"⟩, rfl, by decide⟩)⟩

/-- C5: a group message not from self, with non-empty text matching the food
pattern, in a family group, starts `sendAutoReply(chat, text)` and does nothing
else: the registry and the timers are as before. That goroutine requests the
completion whose only user message is the text verbatim, and sends the first
choice returned to the same chat. -/
theorem handleMessage_food_autoReply (env : Env) (w : World) (v : EventsMessage)
    (info : GroupInfo)
    (hself : v.Info.IsFromMe = false) (hgroup : v.Info.IsGroup = true)
    (htext : extractText v.Message ≠ "")
    (hinfo : env.GetGroupInfo v.Info.Chat = .ok info)
    (hfam : stringsContains (env.ToLower info.Name) "family" = true)
    (hfood : shouldAutoRespond (extractText v.Message) = true) :
    handleMessage env w (.message v)
      = { w with spawned := w.spawned ++ [(v.Info.Chat, extractText v.Message)] } ∧
    (handleMessage env w (.message v)).pendingResponses = w.pendingResponses ∧
    (handleMessage env w (.message v)).timers = w.timers ∧
    (handleMessage env w (.message v)).sent = w.sent ∧
    (autoReplyRequest (extractText v.Message)).Messages.filter (fun m => m.Role = "user")
      = [{ Role := "user", Content := extractText v.Message }] ∧
    (∀ w1 : World,
      (sendAutoReply env w1 v.Info.Chat (extractText v.Message)).requested
        = w1.requested ++ [autoReplyRequest (extractText v.Message)] ∧
      (sendAutoReply env w1 v.Info.Chat (extractText v.Message)).pendingResponses
        = w1.pendingResponses ∧
      ∀ reply rest,
        env.CreateChatCompletion (autoReplyRequest (extractText v.Message))
          = .ok (reply :: rest) →
        (sendAutoReply env w1 v.Info.Chat (extractText v.Message)).sent
          = w1.sent ++ [(v.Info.Chat, reply)]) := by
  have hm : handleMessage env w (.message v)
      = { w with spawned := w.spawned ++ [(v.Info.Chat, extractText v.Message)] } := by
    unfold handleMessage
    simp only [hself, hgroup, hinfo, hfam, hfood]
    simp [htext]
  refine ⟨hm, by rw [hm], by rw [hm], by rw [hm], ?_, ?_⟩
  · simp [autoReplyRequest]
  · intro w1
    refine ⟨?_, ?_, ?_⟩
    · unfold sendAutoReply
      split <;> rfl
    · unfold sendAutoReply
      split <;> rfl
    · intro reply rest hc
      unfold sendAutoReply
      rw [hc]

/-- The food question of the first scenario goes to `sendAutoReply` verbatim
and leaves the registry alone. -/
theorem handleMessage_food_autoReply_witness :
    (handleMessage sampleEnv World.init (.message sushiEvent)).spawned
      = [(familyChat, "Should we do sushi tonight?")] ∧
    (handleMessage sampleEnv World.init (.message sushiEvent)).pendingResponses
      = World.init.pendingResponses :=
  have h := handleMessage_food_autoReply sampleEnv World.init sushiEvent ⟨"Our Family"⟩
    rfl rfl (by decide) rfl (by decide) (by decide)
  ⟨by rw [h.1]; rfl, h.2.1⟩

/-- C6: a group message not from self, with non-empty text not matching the
food pattern, in a family group, cancels and re-arms: the chat's entry becomes
a new armed timer due exactly ten seconds from now, the timer registered
before (if any) is stopped, every other chat's entry and the traffic are
unchanged; the new timer cannot expire before the ten seconds are over, and
when it expires after them the text sent to that chat is `Jag svarar snart.`. -/
theorem handleMessage_arms_standby (env : Env) (w : World) (v : EventsMessage)
    (info : GroupInfo)
    (hself : v.Info.IsFromMe = false) (hgroup : v.Info.IsGroup = true)
    (htext : extractText v.Message ≠ "")
    (hinfo : env.GetGroupInfo v.Info.Chat = .ok info)
    (hfam : stringsContains (env.ToLower info.Name) "family" = true)
    (hfood : shouldAutoRespond (extractText v.Message) = false) :
    handleMessage env w (.message v)
      = setPendingResponse (cancelPendingResponse w v.Info.Chat.String) v.Info.Chat
          (10 * Second) ∧
    (handleMessage env w (.message v)).pendingResponses v.Info.Chat.String
      = some w.timers.length ∧
    (handleMessage env w (.message v)).timers[w.timers.length]?
      = some { chatJID := v.Info.Chat, when := w.now + tenSeconds, state := .armed } ∧
    (∀ k, k ≠ v.Info.Chat.String →
      (handleMessage env w (.message v)).pendingResponses k = w.pendingResponses k) ∧
    (∀ t0 tm, w.pendingResponses v.Info.Chat.String = some t0 → w.timers[t0]? = some tm →
      (handleMessage env w (.message v)).timers[t0]? = some tm.Stop) ∧
    (handleMessage env w (.message v)).sent = w.sent ∧
    (handleMessage env w (.message v)).spawned = w.spawned ∧
    (∀ d, d < tenSeconds →
      timerExpire (elapse (handleMessage env w (.message v)) d) w.timers.length = none) ∧
    (∀ d, tenSeconds ≤ d →
      ∃ w2, timerExpire (elapse (handleMessage env w (.message v)) d) w.timers.length
          = some w2 ∧
        w2.sent = w.sent ++ [(v.Info.Chat, "Jag svarar snart.")]) := by
  have hm : handleMessage env w (.message v)
      = setPendingResponse (cancelPendingResponse w v.Info.Chat.String) v.Info.Chat
          (10 * Second) := by
    unfold handleMessage
    simp only [hself, hgroup, hinfo, hfam, hfood]
    simp [htext]
  have hten : (10 * Second).toNat = tenSeconds := by decide
  have hlen : (cancelPendingResponse w v.Info.Chat.String).timers.length = w.timers.length := by
    unfold cancelPendingResponse
    split <;> simp [length_updateTimer]
  have hnone : (cancelPendingResponse w v.Info.Chat.String).pendingResponses v.Info.Chat.String
      = none := cancelPendingResponse_self w v.Info.Chat.String
  have hnow : (cancelPendingResponse w v.Info.Chat.String).now = w.now := by
    unfold cancelPendingResponse
    split <;> rfl
  have hsent : (cancelPendingResponse w v.Info.Chat.String).sent = w.sent := by
    unfold cancelPendingResponse
    split <;> rfl
  have hspawned : (cancelPendingResponse w v.Info.Chat.String).spawned = w.spawned := by
    unfold cancelPendingResponse
    split <;> rfl
  have htimers : (handleMessage env w (.message v)).timers
      = (cancelPendingResponse w v.Info.Chat.String).timers
        ++ [{ chatJID := v.Info.Chat, when := w.now + tenSeconds, state := .armed }] := by
    rw [hm]
    simp [setPendingResponse, hnone, hten, hnow]
  have hnew : (handleMessage env w (.message v)).timers[w.timers.length]?
      = some { chatJID := v.Info.Chat, when := w.now + tenSeconds, state := .armed } := by
    rw [htimers, ← hlen]
    simp
  have hsent2 : (handleMessage env w (.message v)).sent = w.sent := by
    rw [hm]
    simp [setPendingResponse, hsent]
  refine ⟨hm, ?_, hnew, ?_, ?_, hsent2, ?_, ?_, ?_⟩
  · rw [hm]
    simp [setPendingResponse, hnone, hlen]
  · intro k hk
    rw [hm]
    simp [setPendingResponse, hk, cancelPendingResponse_other w v.Info.Chat.String k hk]
  · intro t0 tm ht0 htm
    have hstop := cancelPendingResponse_stops w v.Info.Chat.String t0 tm ht0 htm
    have hlt : t0 < (cancelPendingResponse w v.Info.Chat.String).timers.length := by
      by_contra hge
      have : (cancelPendingResponse w v.Info.Chat.String).timers[t0]? = none :=
        List.getElem?_eq_none (Nat.le_of_not_lt hge)
      rw [this] at hstop
      exact absurd hstop (by simp)
    rw [htimers, List.getElem?_append_left hlt, hstop]
  · rw [hm]
    simp [setPendingResponse, hspawned]
  · intro d hd
    have hn : (elapse (handleMessage env w (.message v)) d).now = w.now + d := by
      simp [elapse, hm, setPendingResponse, hnow]
    exact timerExpire_of_early _ _ _ hnew (by rw [hn]; exact Nat.add_lt_add_left hd _)
  · intro d hd
    have hn : (elapse (handleMessage env w (.message v)) d).now = w.now + d := by
      simp [elapse, hm, setPendingResponse, hnow]
    refine ⟨_, timerExpire_of_due _ _ _ hnew rfl
      (by rw [hn]; exact Nat.add_le_add_left hd _), ?_⟩
    simp [sendWaitingMessage, elapse, hsent2]

/-- The second scenario: `Hey everyone` in `Our Family` arms timer 0, due at
ten seconds, and its expiry sends the standby text. -/
theorem handleMessage_arms_standby_witness :
    (handleMessage sampleEnv World.init (.message heyEvent)).pendingResponses
        heyEvent.Info.Chat.String = some World.init.timers.length ∧
    ∃ w2, timerExpire (elapse (handleMessage sampleEnv World.init (.message heyEvent))
        tenSeconds) World.init.timers.length = some w2 ∧
      w2.sent = World.init.sent ++ [(heyEvent.Info.Chat, "Jag svarar snart.")] :=
  have h := handleMessage_arms_standby sampleEnv World.init heyEvent ⟨"Our Family"⟩
    rfl rfl (by decide) rfl (by decide) (by decide)
  ⟨h.2.1, h.2.2.2.2.2.2.2.2 tenSeconds (Nat.le_refl _)⟩

/-- C1: with a standby pending for the family chat, a message from the
operator in that chat is skipped by the first test of `handleMessage`: the
entry stays registered, its timer stays armed, and seven seconds later it
expires and the standby text is sent. -/
theorem handleMessage_fromSelf_keeps_standby :
    sampleEnv.GetGroupInfo familyChat = .ok ⟨"Our Family"⟩ ∧
    stringsContains (sampleEnv.ToLower "Our Family") "family" = true ∧
    standbyPending.pendingResponses familyChat.String = some 0 ∧
    (handleMessage sampleEnv standbyPending (.message selfReplyEvent)).pendingResponses
        familyChat.String = some 0 ∧
    (handleMessage sampleEnv standbyPending (.message selfReplyEvent)).timers
      = [{ chatJID := familyChat, when := tenSeconds, state := .armed }] ∧
    (timerExpire
        (elapse (handleMessage sampleEnv standbyPending (.message selfReplyEvent)) 7000000000)
        0).map (fun w => w.sent)
      = some [(familyChat, "Jag svarar snart.")] := by
  refine ⟨rfl, ?_⟩
  decide

/-- C8: on a payload with a present but empty extended-text body and an image
captioned `pizza?`, the extracted text is empty: the extended-text branch is
taken as soon as that body is present, and the caption is never looked at. -/
theorem extractText_empty_extended_hides_caption :
    GetImageCaption (GetImageMessage (some emptyExtendedWithImage)) = "pizza?" ∧
    extractText (some emptyExtendedWithImage) = "" := by
  decide

/-- C9: the Swedish words with `ä` do not match: in the source file the
pattern holds them as the two runes `Ã¤`, so `äta`, `käk` and `beställa` are
not food words, while the two-rune spellings are. -/
theorem shouldAutoRespond_misses_swedish_tokens :
    shouldAutoRespond "Ska vi äta?" = false ∧
    shouldAutoRespond "käk" = false ∧
    shouldAutoRespond "beställa" = false ∧
    shouldAutoRespond "kÃ¤k" = true ∧
    shouldAutoRespond "Should we do SUSHI tonight?" = true := by
  decide

/-! ## Expiry -/

/-- C3, as stated, fails: when the timer armed for the family chat expires, the
standby text has been sent while the chat's entry is still registered; and when
the chat is re-armed before the clean-up of the expired timer, that clean-up
removes the entry of the new timer, which stays armed. -/
theorem expiry_removes_entry_first_counterexample :
    (timerExpire armedDue 0).map (fun w => (w.sent, w.pendingResponses familyChat.String))
      = some ([(familyChat, "Jag svarar snart.")], some 0) ∧
    (run World.init (orphanSchedule.take 4)).map
        (fun p => (p.1.pendingResponses familyChat.String, p.1.timers.map (fun tm => tm.state)))
      = some (some 1, [.fired, .armed]) ∧
    (run World.init (orphanSchedule.take 5)).map
        (fun p => (p.1.pendingResponses familyChat.String, p.1.timers.map (fun tm => tm.state)))
      = some (none, [.done, .armed]) := by
  decide

/-- C3, amended: when a timer that is still the registered entry of its chat
expires, the standby text is sent first, to the chat the timer was armed for,
with the registry untouched, so the entry is still there at the send; the
clean-up that follows removes that entry and leaves every other chat's entry
and the traffic as they were. -/
theorem expiry_sends_then_removes_entry (w : World) (t : Nat) (tm : Timer)
    (htm : w.timers[t]? = some tm) (harmed : tm.state = .armed) (hdue : tm.when ≤ w.now)
    (hreg : w.pendingResponses tm.chatJID.String = some t) :
    ∃ w1, timerExpire w t = some w1 ∧
      w1.sent = w.sent ++ [(tm.chatJID, "Jag svarar snart.")] ∧
      w1.pendingResponses = w.pendingResponses ∧
      w1.pendingResponses tm.chatJID.String = some t ∧
      ∃ w2, timerCleanup w1 t = some w2 ∧
        w2.pendingResponses tm.chatJID.String = none ∧
        (∀ k, k ≠ tm.chatJID.String → w2.pendingResponses k = w.pendingResponses k) ∧
        w2.sent = w1.sent := by
  refine ⟨_, timerExpire_of_due w t tm htm harmed hdue, rfl, rfl, hreg, ?_⟩
  have hfired : (sendWaitingMessage
      { w with timers := updateTimer (fun x => { x with state := .fired }) t w.timers }
      tm.chatJID).timers[t]? = some { tm with state := .fired } := by
    simp [sendWaitingMessage, getElem?_updateTimer_self, htm]
  unfold timerCleanup
  rw [hfired]
  simp only [if_true]
  refine ⟨_, rfl, ?_, ?_, rfl⟩
  · simp
  · intro k hk
    simp [hk, sendWaitingMessage]

/-- The timer armed at process start for the family chat, at its due time. -/
theorem expiry_sends_then_removes_entry_witness :
    ∃ w1, timerExpire armedDue 0 = some w1 ∧
      w1.sent = armedDue.sent ++ [(familyChat, "Jag svarar snart.")] ∧
      w1.pendingResponses familyChat.String = some 0 ∧
      ∃ w2, timerCleanup w1 0 = some w2 ∧
        w2.pendingResponses familyChat.String = none := by
  obtain ⟨w1, h1, h2, _, h4, w2, h5, h6, _, _⟩ :=
    expiry_sends_then_removes_entry armedDue 0
      { chatJID := familyChat, when := tenSeconds, state := .armed }
      (by decide) rfl (by decide) (by decide)
  exact ⟨w1, h1, h2, h4, w2, h5, h6⟩

/-! ## Executions -/

/-- C2: in `orphanSchedule`, which every step of is enabled from the initial
state, the disarm of the family chat (step 5) is followed by a standby send to
that chat (step 7) with no arm in between: the timer of the re-arm lost its
entry to the clean-up of the expired timer, so the disarm found nothing to
stop. -/
theorem disarm_followed_by_standby_send :
    (run World.init orphanSchedule).map (fun p => (p.2, p.1.sent))
      = some (orphanObs,
          [(familyChat, "Jag svarar snart."), (familyChat, "Jag svarar snart.")]) ∧
    ¬ DisarmSilences orphanObs := by
  refine ⟨by decide, ?_⟩
  intro h
  obtain ⟨k, h1, h2, h3⟩ := h familyChat.String 5 7 (by decide) (by decide) (by decide)
  have hk : k = 6 := by omega
  subst hk
  exact absurd h3 (by decide)

/-- C4: in `rearmSchedule` the two calls `setPendingResponse(c, 10s)` at 11 s
and at 14 s are not separated by an expiry and are followed by no arm or
disarm, yet after the second call the timer of the first is still armed, not
stopped (the clean-up of an earlier expiry removed its entry in between), and
both timers expire and send, at 21 s and at 24 s. -/
theorem rearm_after_stale_cleanup_sends_twice :
    (run World.init rearmPrefix).map
        (fun p => (p.1.now, p.1.timers, p.1.pendingResponses familyChat.String, p.1.sent.length))
      = some (14000000000,
          [ { chatJID := familyChat, when := 10000000000, state := .done },
            { chatJID := familyChat, when := 21000000000, state := .armed },
            { chatJID := familyChat, when := 24000000000, state := .armed } ],
          some 2, 1) ∧
    (run World.init rearmSchedule).map
        (fun p => (p.1.now, p.1.timers.map (fun tm => tm.state), p.1.sent.length,
          p.2.count (.arm familyChat.String), p.2.count (.standby familyChat.String)))
      = some (24000000000, [.done, .fired, .fired], 3, 3, 3) := by
  decide

end Waresponse
